import Mathlib

/-
Shallow embedding of the knieriem/modbus Go library.

Each definition below mirrors one Go function of the repository; the Go
file and line numbers are given next to each definition.  Go machine
integers are modelled as Nat (for byte values, lengths and counters that
never go negative in the modelled code paths) or Int (for values of Go
type int or time.Duration where sign matters).  Go byte slices are
modelled as List Nat.  Fallible operations (slice indexing that can
panic, loops that may not terminate) are modelled with Option.
-/

/- ===== Error model (network.go) ===== -/

/-- MsgContext constants of network.go lines 219 to 225. -/
inductive MsgContext
  | adu
  | pdu
  | data
deriving DecidableEq

/-- The struct InvalidLenError of network.go lines 213 to 217.
Go fields Len and ExpectedLen have Go type int and slice of int. -/
structure InvalidLenError where
  msgContext : MsgContext
  len : Int
  expectedLen : List Int
deriving DecidableEq

/-- A Go error value, tagged with its dynamic type.  Go interface values
carry the dynamic type of the stored value, and a type assertion such as
err.(modbus.InvalidLenError) succeeds only when the dynamic type is the
value type, while err.(the pointer type) succeeds only when the dynamic
type is the pointer type.  The embedding therefore keeps two constructors
for InvalidLenError: invalidLenPtr for an error created as a pointer,
which is what NewInvalidLen at network.go line 228 returns, and
invalidLenVal for an error stored as a plain value, which no constructor
of the package produces. -/
inductive GoErr
  | invalidLenPtr (e : InvalidLenError)
  | invalidLenVal (e : InvalidLenError)
  | mismatch (req resp : Nat × Nat)
  | strErr (s : String)
  | exception (x : Nat)
  | wrongProtocolID
  | transactionIDMismatch
  | ctxErr (s : String)
deriving DecidableEq

/-- var ErrTimeout of network.go line 172: the modbus.Error string type. -/
def ErrTimeout : GoErr := GoErr.strErr "timeout"

/-- var ErrInvalidEchoLen of network.go line 175. -/
def ErrInvalidEchoLen : GoErr := GoErr.strErr "invalid local echo length"

/-- var ErrMaxReqLenExceeded of network.go line 176. -/
def ErrMaxReqLenExceeded : GoErr := GoErr.strErr "max request length exceeded"

/-- var ErrCRC of network.go line 177. -/
def ErrCRC : GoErr := GoErr.strErr "CRC error"

/-- var ErrRejected of network.go line 178. -/
def ErrRejected : GoErr := GoErr.strErr "request rejected"

/-- var ErrEchoMismatch of network.go line 173. -/
def ErrEchoMismatch : GoErr := GoErr.strErr "local echo mismatch"

/-- NewInvalidLen, network.go lines 227 to 229.  The Go function returns
a pointer: it allocates an InvalidLenError struct and returns its address,
so the dynamic type of the resulting error is the pointer type. -/
def NewInvalidLen (ctx : MsgContext) (hav : Int) (want : List Int) : GoErr :=
  GoErr.invalidLenPtr { msgContext := ctx, len := hav, expectedLen := want }

/-- Method TooLong of InvalidLenError, network.go lines 252 to 254:
true when ExpectedLen has exactly one entry and Len exceeds it. -/
def InvalidLenError.TooLong (e : InvalidLenError) : Bool :=
  match e.expectedLen with
  | [w] => e.len > w
  | _ => false

/-- Method TooShort of InvalidLenError, network.go lines 256 to 258. -/
def InvalidLenError.TooShort (e : InvalidLenError) : Bool :=
  match e.expectedLen with
  | [w] => e.len < w
  | _ => false

/-- MsgInvalid, network.go lines 615 to 629.  The first type assertion
is against the pointer type of InvalidLenError, so it succeeds on the
errors NewInvalidLen produces; the second is against the pointer type of
MismatchError; the switch then recognises ErrInvalidEchoLen and ErrCRC. -/
def MsgInvalid : GoErr → Bool
  | GoErr.invalidLenPtr _ => true
  | GoErr.mismatch _ _ => true
  | e => e == ErrInvalidEchoLen || e == ErrCRC

/-- MaybeTruncatedMsg, rtu/rtu.go lines 164 to 170.  The Go code runs
the type assertion err.(modbus.InvalidLenError) against the VALUE type,
so it succeeds only for an error whose dynamic type is the plain struct,
never for the pointer typed errors that NewInvalidLen returns. -/
def MaybeTruncatedMsg : GoErr → Bool
  | GoErr.invalidLenVal e => !e.TooLong
  | _ => false

/- ===== Expected response length specifications (network.go) ===== -/

/-- The struct VariableRespLenSpec of network.go lines 373 to 380.
All six fields have Go type int; they describe byte counts and index
offsets inside a PDU and are non-negative in every use (a negative
value would make the Go code panic on a negative slice index), so they
are modelled as Nat. -/
structure VariableRespLenSpec where
  prefixLen : Nat
  numItemsFixed : Nat
  numItemsIndex : Nat
  itemLenIndex : Nat
  itemTailLen : Nat
  tailLen : Nat
deriving DecidableEq

/-- The for loop of VariableRespLenSpec.Match, network.go lines 604 to
610, followed by the final TailLen addition and comparison of lines 611
to 612.  The first argument of the recursion is the number of remaining
loop iterations (Go: ni - i), the second is the running offset nx. -/
def matchLoop (v : VariableRespLenSpec) (pdu : List Nat) (n : Nat) :
    Nat → Nat → Nat × Bool
  | 0, nx => (nx + v.tailLen, n == nx + v.tailLen)
  | ni + 1, nx =>
    let nx1 := nx + v.itemLenIndex + 1
    if n < nx1 then (nx1, false)
    else matchLoop v pdu n ni (nx1 + pdu.getD (nx1 - 1) 0 + v.itemTailLen)

/-- VariableRespLenSpec.Match, network.go lines 589 to 613.  Returns the
pair (expectedLen, match).  The byte reads pdu at nx minus 1 happen only
after the guard n < nx failed, so the default of getD is never used. -/
def VariableRespLenSpec.Match (v : VariableRespLenSpec) (pdu : List Nat) :
    Nat × Bool :=
  let n := pdu.length
  if v.numItemsFixed = 0 then
    let nx := v.numItemsIndex + 1
    if n < nx then (nx, false)
    else
      let ni := pdu.getD (nx - 1) 0
      let nx2 := nx + v.prefixLen
      if n < nx2 then (nx2, false)
      else matchLoop v pdu n ni nx2
  else
    let nx := v.prefixLen
    if n < nx then (nx, false)
    else matchLoop v pdu n v.numItemsFixed nx

/-- The struct ExpectedRespLenSpec of network.go lines 364 to 367.
ValidLen is a Go slice that the code compares against nil, so it is
modelled as an Option; Variable is a nilable pointer. -/
structure ExpectedRespLenSpec where
  validLen : Option (List Int)
  variable_ : Option VariableRespLenSpec
deriving DecidableEq

/-- The range loop over valid of CheckLen, network.go lines 572 to 582.
Returns none when the loop returned nil early (a zero entry at index
greater than zero, or an entry equal to n), otherwise some of the
maximum accumulator.  The index argument i and the accumulator mx mirror
the Go loop variables. -/
def checkLenLoop (n : Int) : List Int → Nat → Int → Option Int
  | [], _, mx => some mx
  | l :: rest, i, mx =>
    if i > 0 ∧ l = 0 then none
    else if l = n then none
    else checkLenLoop n rest (i + 1) (if l > mx then l else mx)

/-- ExpectedRespLenSpec.CheckLen, network.go lines 549 to 587.  The
receiver is a nilable pointer, modelled as an Option; nil receivers
return nil (no error).  The result is an optional error. -/
def CheckLen (ls : Option ExpectedRespLenSpec) (pdu : List Nat) : Option GoErr :=
  match ls with
  | none => none
  | some s =>
    let n : Int := pdu.length
    if pdu.length = 2 ∧ pdu.getD 0 0 &&& 0x80 ≠ 0 then
      none
    else
      match s.validLen with
      | none =>
        match s.variable_ with
        | some v =>
          let r := v.Match pdu
          if !r.2 then some (NewInvalidLen MsgContext.data n [(r.1 : Int)])
          else none
        | none => none
      | some valid =>
        match checkLenLoop n valid 0 0 with
        | none => none
        | some mx =>
          if n > mx then some (NewInvalidLen MsgContext.pdu n [mx])
          else some (NewInvalidLen MsgContext.pdu n valid)

/- ===== ADU and AddrPDU (network.go) ===== -/

/-- The struct ADU of network.go lines 71 to 81.  Both index fields
have Go type int. -/
structure ADU where
  bytes : List Nat
  pduStart : Int
  pduEnd : Int

/-- Go slice indexing s at i: panics unless 0 le i lt len(s); the panic
is modelled as none. -/
def goIndex (xs : List Nat) (i : Int) : Option Nat :=
  if 0 ≤ i ∧ i < (xs.length : Int) then some (xs.getD i.toNat 0) else none

/-- The Go full slice expression s at lo, hi, mx: panics unless
0 le lo le hi le mx le cap(s); the capacity is modelled as the length.
The value of the result depends only on lo and hi. -/
def goSlice3 (xs : List Nat) (lo hi mx : Int) : Option (List Nat) :=
  if 0 ≤ lo ∧ lo ≤ hi ∧ hi ≤ mx ∧ mx ≤ (xs.length : Int) then
    some ((xs.take hi.toNat).drop lo.toNat)
  else none

/-- ADU.AddrPDU, network.go lines 88 to 104.  The Go code indexes
Bytes at PDUStart minus 1 and takes the full slice expression
Bytes from PDUStart to end with capacity bound cap plus PDUEnd; both
can panic, which the model maps to none. -/
def ADU.AddrPDU (adu : ADU) : Option (Nat × List Nat) :=
  if adu.pduStart = 0 then some (0, [])
  else
    let e : Int := (adu.bytes.length : Int) + adu.pduEnd
    if e < adu.pduStart then some (0, [])
    else
      match goIndex adu.bytes (adu.pduStart - 1) with
      | none => none
      | some addr =>
        match goSlice3 adu.bytes adu.pduStart e ((adu.bytes.length : Int) + adu.pduEnd) with
        | none => none
        | some pdu => some (addr, pdu)

/- ===== Long turnaround admission control (network.go) ===== -/

/-- The struct longTurnaroundStatus of network.go lines 116 to 130.
The time.Time field is modelled as an Int count of nanoseconds; the
uint8 addr field as a Nat. -/
structure longTurnaroundStatus where
  tPrev : Int
  addr : Nat
  rejectedOtherAddrs : Bool
deriving DecidableEq

/-- Method record of longTurnaroundStatus, network.go lines 132 to 137. -/
def longTurnaroundStatus.record (_lt : longTurnaroundStatus)
    (tPrev : Int) (addr : Nat) : longTurnaroundStatus :=
  { tPrev := tPrev, addr := addr, rejectedOtherAddrs := false }

/-- Method allowed of longTurnaroundStatus, network.go lines 139 to 150.
The Go method mutates the receiver and returns a bool; the model returns
the bool together with the updated state.  time.Now() is passed in as
the argument now. -/
def longTurnaroundStatus.allowed (lt : longTurnaroundStatus)
    (now : Int) (addr : Nat) (minElapsed : Int) :
    Bool × longTurnaroundStatus :=
  if now - lt.tPrev < minElapsed then
    (false,
     if addr ≠ lt.addr then { lt with rejectedOtherAddrs := true } else lt)
  else if lt.addr = addr ∧ lt.rejectedOtherAddrs then
    (false, { lt with addr := 0 })
  else
    (true, lt)

/-- The admission gate at the start of Network.Request, network.go lines
421 to 425: with a nonzero minElapsedSincePrev option the request is
rejected with ErrRejected when allowed returns false, before any bytes
are written to the connection. -/
def requestAdmit (lt : longTurnaroundStatus) (now : Int) (addr : Nat)
    (minElapsed : Int) : Option GoErr × longTurnaroundStatus :=
  if minElapsed ≠ 0 then
    let r := lt.allowed now addr minElapsed
    if !r.1 then (some ErrRejected, r.2) else (none, r.2)
  else (none, lt)

/- ===== Request length precheck (network.go) ===== -/

/-- The msgLenCounter based length check of Network.Request, network.go
lines 429 to 441: the MultiWriter counts the two header bytes addr and
fn plus the bytes the request encoder wrote; when the count exceeds 254
the request returns ErrMaxReqLenExceeded before conn.Send() is reached.
The argument data is the byte sequence produced by a successful
req.Encode. -/
def requestLenCheck (addr fn : Nat) (data : List Nat) : Option GoErr :=
  let msgLen := [addr, fn].length + data.length
  if msgLen > 254 then some ErrMaxReqLenExceeded else none

/- ===== TCP MBAP framer (modtcp/modtcp.go, serframe based version) ===== -/

/-- Big endian uint16 read, binary.BigEndian.Uint16(buf at i): the two
bytes at offsets i and i plus 1.  Every use below is guarded by a length
check of the Go code, so the getD default is never taken. -/
def beU16 (buf : List Nat) (i : Nat) : Nat :=
  buf.getD i 0 * 256 + buf.getD (i + 1) 0

/-- Outcome of validating a single received MBAP frame. -/
inductive TcpStep
  | accept
  | stale
  | reject (e : GoErr)
deriving DecidableEq

/-- The per-frame validation sequence of Conn.Receive,
modtcp/modtcp.go lines 273 to 311: minimum length mbapHdrSize plus 1,
protocol identifier zero, total length equal to the length field plus
hdrSize (6), the expected length check on the PDU starting at offset 7,
then the transaction identifier comparison against the sent one
(m.transactionID, argument txn).  A smaller transaction identifier
classifies the frame as stale. -/
def tcpCheckFrame (txn : Nat) (ls : Option ExpectedRespLenSpec)
    (buf : List Nat) : TcpStep :=
  let n := buf.length
  if n < 8 then TcpStep.reject (NewInvalidLen MsgContext.adu n [8])
  else if beU16 buf 2 ≠ 0 then TcpStep.reject GoErr.wrongProtocolID
  else
    let length := beU16 buf 4 + 6
    if n ≠ length then TcpStep.reject (NewInvalidLen MsgContext.adu n [(length : Int)])
    else
      match CheckLen ls (buf.drop 7) with
      | some e => TcpStep.reject e
      | none =>
        let tID := beU16 buf 0
        if tID < txn then TcpStep.stale
        else if tID ≠ txn then TcpStep.reject GoErr.transactionIDMismatch
        else TcpStep.accept

/-- Result of a Conn.Receive call. -/
inductive TcpRecv
  | frame (adu : List Nat)
  | recvErr (e : GoErr)
  | exhausted
deriving DecidableEq

/-- The retry loop of Conn.Receive, modtcp/modtcp.go lines 272 to 312:
frames are read one after another; a stale frame re-enables reception
(StartReception, modelled as always succeeding) and loops back to read
the next frame; any other validation error is returned; an accepted
frame is returned to the caller.  The incoming frames are modelled as a
list; an empty list means the underlying ReadFrame never delivers
another frame (exhausted). -/
def tcpReceive (txn : Nat) (ls : Option ExpectedRespLenSpec) :
    List (List Nat) → TcpRecv
  | [] => TcpRecv.exhausted
  | f :: rest =>
    match tcpCheckFrame txn ls f with
    | TcpStep.accept => TcpRecv.frame f
    | TcpStep.stale => tcpReceive txn ls rest
    | TcpStep.reject e => TcpRecv.recvErr e

/- ===== Frame reader (rtu/readmgr.go, channel based version) ===== -/

/-- Configuration of a ReadMgr.Read call: the CheckBytes and
MsgComplete callbacks of the ReadMgr struct (rtu/readmgr.go lines 143
and 144) and the interframeTimeoutMax argument, in nanoseconds. -/
structure RMConfig where
  checkBytes : Option (List Nat → List Nat → Bool)
  msgComplete : Option (List Nat → Bool)
  interframeTimeoutMax : Nat

/-- The fixed interframe timeout of 1750 microseconds,
rtu/readmgr.go line 188, in nanoseconds. -/
def interframeTimeoutNs : Nat := 1750000

/-- ntoMax, rtu/readmgr.go line 189: the rounded up ratio of
interframeTimeoutMax and the fixed interframe timeout. -/
def ntoMax (ifMax : Nat) : Nat :=
  (ifMax + interframeTimeoutNs - 1) / interframeTimeoutNs

/-- The mutable local state of the readLoop of ReadMgr.Read:
the accumulated buffer m.buf, the validation flag bufok, the timeout
extension counter nto, the echo skip count nSkip, and the pending echo
m.echo. -/
structure RMState where
  buf : List Nat
  bufok : Bool
  nto : Nat
  nSkip : Nat
  echo : Option (List Nat)
deriving DecidableEq

/-- One occurrence the select statement of ReadMgr.Read can wake up on:
a read result from the handler goroutine (the accumulated buffer grows
by chunk, with an optional read error), the expiry of the armed timer,
or context cancellation. -/
inductive RMEvent
  | dataDone (chunk : List Nat) (rdErr : Option GoErr)
  | timerFired
  | ctxDone (e : GoErr)

/-- Outcome of processing one event: keep looping with a new state,
leave the loop and run the common epilogue (err may be set), or the
early return of the read error path (rtu/readmgr.go lines 204 to 209),
which returns the zero valued buf together with the error and skips the
epilogue. -/
inductive RMOut
  | next (st : RMState)
  | leave (st : RMState) (err : Option GoErr)
  | abort (e : GoErr)

/-- The code that runs when m.echo is nil after new data arrived, i.e.
the branch at rtu/readmgr.go lines 230 to 239: a present MsgComplete
callback may end the loop; with interframeTimeoutMax zero the loop ends
immediately; otherwise nto is reset and the interframe timer armed. -/
def rmAfterData (cfg : RMConfig) (st : RMState) : RMOut :=
  match cfg.msgComplete with
  | some mcf =>
    if mcf (st.buf.drop st.nSkip) then RMOut.leave st none
    else if cfg.interframeTimeoutMax = 0 then RMOut.leave st none
    else RMOut.next { st with nto := 0 }
  | none =>
    if cfg.interframeTimeoutMax = 0 then RMOut.leave st none
    else RMOut.next { st with nto := 0 }

/-- The echo examination code at rtu/readmgr.go lines 210 to 229 (label
reeval): once the buffer holds at least the echo, the tail beyond the
echo is revalidated by CheckBytes, the echo prefix is compared
(ErrEchoMismatch on difference), nSkip advances past the echo and the
echo is cleared; with a nonempty tail control reaches the same logic as
the echo free case, with an empty tail the overall timer is rearmed and
the loop continues. -/
def rmReeval (cfg : RMConfig) (st : RMState) : RMOut :=
  match st.echo with
  | some ec =>
    if ec.length ≤ st.buf.length then
      let tail := st.buf.drop ec.length
      let bufok2 :=
        match cfg.checkBytes with
        | some cb => if tail ≠ [] then cb tail (st.buf.drop st.nSkip) else st.bufok
        | none => st.bufok
      if st.buf.take ec.length ≠ ec then RMOut.leave st (some ErrEchoMismatch)
      else
        let st2 := { st with bufok := bufok2, nSkip := ec.length, echo := none }
        if tail ≠ [] then rmAfterData cfg st2
        else RMOut.next st2
    else RMOut.next st
  | none => rmAfterData cfg st

/-- One iteration of the select loop of ReadMgr.Read, rtu/readmgr.go
lines 192 to 257, processing a single wakeup event. -/
def rmStep (cfg : RMConfig) (st : RMState) : RMEvent → RMOut
  | RMEvent.dataDone chunk rdErr =>
    let nb := st.buf.length
    let buf2 := st.buf ++ chunk
    let bufok1 :=
      match cfg.checkBytes, st.echo with
      | some cb, none => cb (buf2.drop nb) (buf2.drop st.nSkip)
      | _, _ => st.bufok
    let st1 := { st with buf := buf2, bufok := bufok1 }
    match rdErr with
    | some e => RMOut.abort e
    | none => rmReeval cfg st1
  | RMEvent.timerFired =>
    match st.echo with
    | some _ =>
      if st.buf.drop st.nSkip ≠ [] then RMOut.leave st (some ErrInvalidEchoLen)
      else RMOut.leave st (some ErrTimeout)
    | none =>
      if st.buf.drop st.nSkip ≠ [] ∧ !st.bufok ∧ st.nto < ntoMax cfg.interframeTimeoutMax then
        RMOut.next { st with nto := st.nto + 1 }
      else RMOut.leave st none
  | RMEvent.ctxDone e => RMOut.leave st (some e)

/-- The epilogue of ReadMgr.Read, rtu/readmgr.go lines 259 to 265:
the returned buffer drops the echo skip; a nil error with an empty
buffer becomes ErrTimeout. -/
def rmEpilogue (st : RMState) (err : Option GoErr) : List Nat × Option GoErr :=
  let buf := st.buf.drop st.nSkip
  if err = none ∧ buf = [] then (buf, some ErrTimeout) else (buf, err)

/-- The readLoop of ReadMgr.Read folded over a list of wakeup events.
The result is none when the event list ends while the loop would still
be waiting. -/
def rmRun (cfg : RMConfig) : RMState → List RMEvent →
    Option (List Nat × Option GoErr)
  | _, [] => none
  | st, ev :: evs =>
    match rmStep cfg st ev with
    | RMOut.next st2 => rmRun cfg st2 evs
    | RMOut.leave st2 err => some (rmEpilogue st2 err)
    | RMOut.abort e => some ([], some e)

/-- ReadMgr.Read, rtu/readmgr.go lines 178 to 266, for a reader that
has not reached end of file: the initial loop state has an empty
buffer, bufok true exactly when CheckBytes is nil (lines 183 to 186),
counters at zero and the optional pending local echo. -/
def rmRead (cfg : RMConfig) (echo0 : Option (List Nat))
    (events : List RMEvent) : Option (List Nat × Option GoErr) :=
  rmRun cfg { buf := [], bufok := cfg.checkBytes.isNone, nto := 0,
              nSkip := 0, echo := echo0 } events

/- ===== Device scan (device.go) ===== -/

/-- ScanDevices, device.go lines 30 to 44.  The loop variable a has Go
type byte, so the increment wraps modulo 256.  The recursion is driven
by an explicit fuel argument (number of loop iterations still allowed);
none means the fuel ran out with the loop still running.  The result
carries the trace of addresses passed to the test function, in call
order, together with the returned error. -/
def scanDevices (test : Nat → Option GoErr) (addrMax : Nat) :
    Nat → Nat → Option (List Nat × Option GoErr)
  | 0, _ => none
  | fuel + 1, a =>
    if a ≤ addrMax then
      match test a with
      | none =>
        match scanDevices test addrMax fuel ((a + 1) % 256) with
        | none => none
        | some (tr, r) => some (a :: tr, r)
      | some e =>
        if e = ErrTimeout ∨ MsgInvalid e then
          match scanDevices test addrMax fuel ((a + 1) % 256) with
          | none => none
          | some (tr, r) => some (a :: tr, r)
        else some ([a], some e)
    else some ([], none)

/-- The error classification inside the ScanDevices loop, device.go
line 36: a probe outcome is swallowed (treated as no device present)
when it is nil, ErrTimeout, or satisfies MsgInvalid. -/
def scanSwallows : Option GoErr → Bool
  | none => true
  | some e => e == ErrTimeout || MsgInvalid e

/- ===== Theorems ===== -/

/-- C1: the truncation classifier MaybeTruncatedMsg returns false for
every error value produced by NewInvalidLen, because the Go type
assertion inside MaybeTruncatedMsg is against the value type
modbus.InvalidLenError while NewInvalidLen returns a pointer; in
particular the claimed classification (true exactly for invalid-length
errors whose TooLong is false) fails already on the too-short ADU error
of rtu Receive. -/
theorem c1_maybe_truncated_always_false_on_produced_errors :
    ∀ (ctx : MsgContext) (hav : Int) (want : List Int),
      MaybeTruncatedMsg (NewInvalidLen ctx hav want) = false := by
  intro ctx hav want
  rfl

set_option maxRecDepth 4000 in
/-- C3 counterexample: a request PDU of 254 bytes (function code plus
253 data bytes) is rejected with ErrMaxReqLenExceeded, although the
claim states that a 254 byte PDU is accepted and only 255 bytes and
longer are rejected. -/
theorem c3_counterexample :
    requestLenCheck 1 3 (List.replicate 253 0) = some ErrMaxReqLenExceeded ∧
    1 + (List.replicate 253 (0 : Nat)).length = 254 := by
  refine ⟨?_, by simp⟩
  show (if ([1, 3].length + (List.replicate 253 (0 : Nat)).length) > 254 then
      some ErrMaxReqLenExceeded else none) = some ErrMaxReqLenExceeded
  rw [List.length_replicate]
  norm_num

/-- C3 amended: for every request whose encoder succeeds, the request
is rejected with ErrMaxReqLenExceeded before anything is sent exactly
when the request PDU (function code plus encoded data) is 254 bytes or
longer, and accepted exactly when it is at most 253 bytes. -/
theorem c3_request_len_boundary :
    ∀ (addr fn : Nat) (data : List Nat),
      (requestLenCheck addr fn data = some ErrMaxReqLenExceeded ↔
        254 ≤ 1 + data.length) ∧
      (requestLenCheck addr fn data = none ↔ 1 + data.length ≤ 253) := by
  intro addr fn data
  unfold requestLenCheck
  constructor
  · constructor
    · intro h
      by_contra hc
      simp only [List.length_cons, List.length_nil] at h
      rw [if_neg (by omega)] at h
      exact Option.noConfusion h
    · intro h
      simp only [List.length_cons, List.length_nil]
      rw [if_pos (by omega)]
  · constructor
    · intro h
      by_contra hc
      simp only [List.length_cons, List.length_nil] at h
      rw [if_pos (by omega)] at h
      exact Option.noConfusion h
    · intro h
      simp only [List.length_cons, List.length_nil]
      rw [if_neg (by omega)]

/-- C5: a non-nil length specification never rejects an exception PDU,
i.e. a PDU of length 2 whose first byte has the high bit set. -/
theorem c5_checklen_exception_exempt :
    ∀ (s : ExpectedRespLenSpec) (pdu : List Nat),
      pdu.length = 2 → pdu.getD 0 0 &&& 0x80 ≠ 0 →
      CheckLen (some s) pdu = none := by
  intro s pdu h2 hbit
  simp only [CheckLen]
  rw [if_pos ⟨h2, hbit⟩]

/-- C5 witness: the exception PDU 0x83 0x02 passes a fixed length
specification expecting 5 bytes. -/
theorem c5_checklen_exception_exempt_witness :
    CheckLen (some { validLen := some [5], variable_ := none }) [0x83, 2] = none :=
  c5_checklen_exception_exempt _ [0x83, 2] (by decide) (by decide)

/-- C10: AddrPDU never panics for the shapes the framers produce.  For
PDUStart zero the result is the zero address with a nil PDU; for
PDUStart at least 1 and PDUEnd at most 0 the function is total: it
returns the zero address and nil PDU when the ADU is too small, and
otherwise the byte before the PDU together with the PDU slice. -/
theorem c10_addrpdu_total :
    ∀ (adu : ADU),
      (adu.pduStart = 0 → adu.AddrPDU = some (0, [])) ∧
      (1 ≤ adu.pduStart → adu.pduEnd ≤ 0 →
        adu.AddrPDU = some (
          if (adu.bytes.length : Int) + adu.pduEnd < adu.pduStart then (0, [])
          else (adu.bytes.getD (adu.pduStart - 1).toNat 0,
                (adu.bytes.take ((adu.bytes.length : Int) + adu.pduEnd).toNat).drop
                  adu.pduStart.toNat))) := by
  intro adu
  constructor
  · intro h0
    unfold ADU.AddrPDU
    rw [if_pos h0]
  · intro h1 h2
    unfold ADU.AddrPDU
    rw [if_neg (by omega)]
    by_cases hsmall : (adu.bytes.length : Int) + adu.pduEnd < adu.pduStart
    · rw [if_pos hsmall, if_pos hsmall]
    · rw [if_neg hsmall, if_neg hsmall]
      unfold goIndex goSlice3
      rw [if_pos (by constructor <;> omega)]
      rw [if_pos (by refine ⟨by omega, by omega, by omega, by omega⟩)]

/-- C10 witness: the RTU shape (PDUStart 1, PDUEnd -2) on a 6 byte ADU
yields address 9 and the 3 byte PDU, and the degenerate 1 byte ADU
yields the zero address with a nil PDU; the PDUStart 0 case yields the
zero address as well. -/
theorem c10_addrpdu_total_witness :
    ADU.AddrPDU { bytes := [9, 1, 2, 3, 4, 5], pduStart := 1, pduEnd := -2 }
        = some (9, [1, 2, 3]) ∧
    ADU.AddrPDU { bytes := [9], pduStart := 1, pduEnd := -2 } = some (0, []) ∧
    ADU.AddrPDU { bytes := [7], pduStart := 0, pduEnd := 0 } = some (0, []) := by
  refine ⟨?_, ?_, ?_⟩
  · have h := (c10_addrpdu_total { bytes := [9, 1, 2, 3, 4, 5], pduStart := 1, pduEnd := -2 }).2
      (by decide) (by decide)
    rw [h]
    decide
  · have h := (c10_addrpdu_total { bytes := [9], pduStart := 1, pduEnd := -2 }).2
      (by decide) (by decide)
    rw [h]
    decide
  · exact (c10_addrpdu_total { bytes := [7], pduStart := 0, pduEnd := 0 }).1 rfl

/-- Helper: every frame that tcpCheckFrame accepts satisfies all five
validation conditions of Conn.Receive. -/
theorem tcpCheckFrame_accept_iff (txn : Nat) (ls : Option ExpectedRespLenSpec)
    (f : List Nat) (h : tcpCheckFrame txn ls f = TcpStep.accept) :
    8 ≤ f.length ∧ beU16 f 2 = 0 ∧ f.length = 6 + beU16 f 4 ∧
    CheckLen ls (f.drop 7) = none ∧ beU16 f 0 = txn := by
  unfold tcpCheckFrame at h
  by_cases h8 : f.length < 8
  · rw [if_pos h8] at h; exact absurd h (by simp)
  rw [if_neg h8] at h
  by_cases hp : beU16 f 2 ≠ 0
  · rw [if_pos hp] at h; exact absurd h (by simp)
  rw [if_neg hp] at h
  by_cases hl : f.length ≠ beU16 f 4 + 6
  · rw [if_pos hl] at h; exact absurd h (by simp)
  rw [if_neg hl] at h
  push_neg at hp hl
  rcases hck : CheckLen ls (f.drop 7) with _ | e
  · rw [hck] at h
    by_cases ht : beU16 f 0 < txn
    · rw [if_pos ht] at h; exact absurd h (by simp)
    rw [if_neg ht] at h
    by_cases hne : beU16 f 0 ≠ txn
    · rw [if_pos hne] at h; exact absurd h (by simp)
    push_neg at hne
    exact ⟨by omega, hp, by omega, rfl, hne⟩
  · rw [hck] at h; exact absurd h (by simp)

/-- Helper: every frame the tcpReceive loop hands to the caller was
accepted by tcpCheckFrame against the current transaction identifier. -/
theorem tcpReceive_frame_accepted (txn : Nat) (ls : Option ExpectedRespLenSpec) :
    ∀ (frames : List (List Nat)) (f : List Nat),
      tcpReceive txn ls frames = TcpRecv.frame f →
      tcpCheckFrame txn ls f = TcpStep.accept := by
  intro frames
  induction frames with
  | nil => intro f h; exact absurd h (by simp [tcpReceive])
  | cons g rest ih =>
    intro f h
    unfold tcpReceive at h
    rcases hc : tcpCheckFrame txn ls g with _ | _ | e <;> rw [hc] at h
    · cases h; exact hc
    · exact ih f h
    · exact absurd h (by simp)

/-- C4 counterexample: the fully valid 8 byte MBAP frame with
transaction identifier 1, protocol identifier 0 and length field 2 is
returned to the caller by Receive, yet its total length 8 differs from
7 plus the length field (9); the accepted-frame invariant of the claim
uses the wrong constant. -/
theorem c4_counterexample :
    tcpReceive 1 none [[0, 1, 0, 0, 0, 2, 17, 3]]
        = TcpRecv.frame [0, 1, 0, 0, 0, 2, 17, 3] ∧
    ([0, 1, 0, 0, 0, 2, 17, 3] : List Nat).length ≠
      7 + beU16 [0, 1, 0, 0, 0, 2, 17, 3] 4 := by
  decide

/-- C4 amended: every frame the TCP MBAP Receive returns to the caller
has protocol identifier 0 and total length equal to 6 plus the length
field; among frames of at least 8 bytes, one with a nonzero protocol
identifier is rejected with WrongProtocolID, and one with protocol
identifier 0 whose total length differs from 6 plus the length field is
rejected with an invalid-length ADU error. -/
theorem c4_tcp_accept_invariant :
    ∀ (txn : Nat) (ls : Option ExpectedRespLenSpec),
      (∀ (frames : List (List Nat)) (f : List Nat),
        tcpReceive txn ls frames = TcpRecv.frame f →
        beU16 f 2 = 0 ∧ f.length = 6 + beU16 f 4) ∧
      (∀ f : List Nat, 8 ≤ f.length → beU16 f 2 ≠ 0 →
        tcpCheckFrame txn ls f = TcpStep.reject GoErr.wrongProtocolID) ∧
      (∀ f : List Nat, 8 ≤ f.length → beU16 f 2 = 0 →
        f.length ≠ 6 + beU16 f 4 →
        tcpCheckFrame txn ls f =
          TcpStep.reject (NewInvalidLen MsgContext.adu f.length
            [((beU16 f 4 + 6 : Nat) : Int)])) := by
  intro txn ls
  refine ⟨?_, ?_, ?_⟩
  · intro frames f h
    have hacc := tcpReceive_frame_accepted txn ls frames f h
    have hprops := tcpCheckFrame_accept_iff txn ls f hacc
    exact ⟨hprops.2.1, hprops.2.2.1⟩
  · intro f h8 hp
    unfold tcpCheckFrame
    rw [if_neg (by omega), if_pos hp]
  · intro f h8 hp hl
    unfold tcpCheckFrame
    rw [if_neg (by omega), if_neg (by simp [hp]), if_pos (by omega)]

/-- C4 witness: the invariant evaluated on the accepted frame of the
counterexample input, and the two rejection clauses on concrete
malformed frames. -/
theorem c4_tcp_accept_invariant_witness :
    (beU16 [0, 1, 0, 0, 0, 2, 17, 3] 2 = 0 ∧
      ([0, 1, 0, 0, 0, 2, 17, 3] : List Nat).length
        = 6 + beU16 [0, 1, 0, 0, 0, 2, 17, 3] 4) ∧
    tcpCheckFrame 1 none [0, 1, 0, 5, 0, 2, 17, 3]
        = TcpStep.reject GoErr.wrongProtocolID ∧
    tcpCheckFrame 1 none [0, 1, 0, 0, 0, 3, 17, 3]
        = TcpStep.reject (NewInvalidLen MsgContext.adu 8 [9]) := by
  refine ⟨?_, ?_, ?_⟩
  · exact (c4_tcp_accept_invariant 1 none).1 [[0, 1, 0, 0, 0, 2, 17, 3]]
      [0, 1, 0, 0, 0, 2, 17, 3] (by decide)
  · exact (c4_tcp_accept_invariant 1 none).2.1 [0, 1, 0, 5, 0, 2, 17, 3]
      (by decide) (by decide)
  · have h := (c4_tcp_accept_invariant 1 none).2.2 [0, 1, 0, 0, 0, 3, 17, 3]
      (by decide) (by decide) (by decide)
    rw [h]
    decide

/-- C6: transaction identifier correlation of the TCP Receive loop.
For a frame that passes the length, protocol and PDU length checks:
a frame with a smaller transaction identifier than the sent one is
silently discarded and reception continues with the next frame inside
the same call; a larger one makes Receive return
TransactionIDMismatch; an equal one is returned to the caller. -/
theorem c6_txn_id_correlation :
    ∀ (txn : Nat) (ls : Option ExpectedRespLenSpec) (f : List Nat)
      (rest : List (List Nat)),
      8 ≤ f.length → beU16 f 2 = 0 → f.length = 6 + beU16 f 4 →
      CheckLen ls (f.drop 7) = none →
      ((beU16 f 0 < txn →
          tcpReceive txn ls (f :: rest) = tcpReceive txn ls rest) ∧
       (txn < beU16 f 0 →
          tcpReceive txn ls (f :: rest)
            = TcpRecv.recvErr GoErr.transactionIDMismatch) ∧
       (beU16 f 0 = txn → tcpReceive txn ls (f :: rest) = TcpRecv.frame f)) := by
  intro txn ls f rest h8 hp hl hck
  have hbase : tcpCheckFrame txn ls f =
      (if beU16 f 0 < txn then TcpStep.stale
       else if beU16 f 0 ≠ txn then TcpStep.reject GoErr.transactionIDMismatch
       else TcpStep.accept) := by
    unfold tcpCheckFrame
    rw [if_neg (by omega), if_neg (by simp [hp]), if_neg (by omega), hck]
  refine ⟨?_, ?_, ?_⟩
  · intro hlt
    have hc : tcpCheckFrame txn ls f = TcpStep.stale := by
      rw [hbase, if_pos hlt]
    simp only [tcpReceive, hc]
  · intro hgt
    have hc : tcpCheckFrame txn ls f = TcpStep.reject GoErr.transactionIDMismatch := by
      rw [hbase, if_neg (by omega), if_pos (by omega)]
    simp only [tcpReceive, hc]
  · intro heq
    have hc : tcpCheckFrame txn ls f = TcpStep.accept := by
      rw [hbase, if_neg (by omega), if_neg (by omega)]
    simp only [tcpReceive, hc]

/-- C6 witness: with sent transaction identifier 2, a stale frame
(identifier 1) is discarded and the next frame (identifier 2) is
returned; a frame with identifier 3 yields TransactionIDMismatch. -/
theorem c6_txn_id_correlation_witness :
    tcpReceive 2 none [[0, 1, 0, 0, 0, 2, 17, 3], [0, 2, 0, 0, 0, 2, 17, 3]]
        = TcpRecv.frame [0, 2, 0, 0, 0, 2, 17, 3] ∧
    tcpReceive 2 none [[0, 3, 0, 0, 0, 2, 17, 3]]
        = TcpRecv.recvErr GoErr.transactionIDMismatch := by
  constructor
  · have h1 := (c6_txn_id_correlation 2 none [0, 1, 0, 0, 0, 2, 17, 3]
      [[0, 2, 0, 0, 0, 2, 17, 3]] (by decide) (by decide) (by decide) (by decide)).1
      (by decide)
    have h2 := (c6_txn_id_correlation 2 none [0, 2, 0, 0, 0, 2, 17, 3]
      [] (by decide) (by decide) (by decide) (by decide)).2.2 (by decide)
    rw [h1, h2]
  · exact (c6_txn_id_correlation 2 none [0, 3, 0, 0, 0, 2, 17, 3]
      [] (by decide) (by decide) (by decide) (by decide)).2.1 (by decide)

/-- Helper: the shape of requestAdmit once the option is set. -/
theorem requestAdmit_eq (lt : longTurnaroundStatus) (now : Int) (a : Nat)
    (minE : Int) (h : minE ≠ 0) :
    requestAdmit lt now a minE =
      (if !(lt.allowed now a minE).1 then (some ErrRejected, (lt.allowed now a minE).2)
       else (none, (lt.allowed now a minE).2)) := by
  unfold requestAdmit
  rw [if_pos h]

/-- C2 counterexample: requests to device address 0 break the claimed
fairness clause.  From the reachable tracker state with addr 0 and
rejectedOtherAddrs set (obtained from the zero state by one early
rejection of another address), a request to address 0 past the elapsed
threshold is rejected (the claimed one-time fairness rejection), but
the next request to the same address 0 past the threshold is rejected
AGAIN, although the claim states the request is rejected exactly once
more and a subsequent request to the same address is admitted. -/
theorem c2_counterexample :
    longTurnaroundStatus.allowed ⟨0, 0, false⟩ 1 3 5 = (false, ⟨0, 0, true⟩) ∧
    (5 : Int) ≤ 10 - 0 ∧
    longTurnaroundStatus.allowed ⟨0, 0, true⟩ 10 0 5 = (false, ⟨0, 0, true⟩) ∧
    (5 : Int) ≤ 20 - 0 ∧
    (longTurnaroundStatus.allowed ⟨0, 0, true⟩ 20 0 5).1 = false := by
  refine ⟨by decide, by decide, by decide, by decide, by decide⟩

/-- C2 amended: with the long-turnaround option set, the admission
control acts as the claimed state machine, except that the fairness
clearing writes the placeholder address 0 into the tracker, so the
guarantee that a subsequent request to the same address is admitted
holds for nonzero device addresses.  Precisely: a request within
minElapsed of tPrev is rejected with ErrRejected before sending, and
when its address differs from the tracked one rejectedOtherAddrs is
set; a request past minElapsed to the tracked address with
rejectedOtherAddrs set is rejected once more with the tracked address
reset to 0, after which a request to the same nonzero address past
minElapsed is admitted; any other request past minElapsed is
admitted. -/
theorem c2_long_turnaround_admission :
    ∀ (lt : longTurnaroundStatus) (now minE : Int) (a : Nat),
      0 < minE →
      ((now - lt.tPrev < minE →
          (requestAdmit lt now a minE).1 = some ErrRejected ∧
          (a ≠ lt.addr →
            (lt.allowed now a minE).2.rejectedOtherAddrs = true)) ∧
       (minE ≤ now - lt.tPrev → lt.addr = a → lt.rejectedOtherAddrs = true →
          (lt.allowed now a minE).1 = false ∧
          (requestAdmit lt now a minE).1 = some ErrRejected ∧
          (lt.allowed now a minE).2.addr = 0 ∧
          (lt.allowed now a minE).2.tPrev = lt.tPrev ∧
          (a ≠ 0 → ∀ now2 : Int,
            minE ≤ now2 - (lt.allowed now a minE).2.tPrev →
            ((lt.allowed now a minE).2.allowed now2 a minE).1 = true)) ∧
       (minE ≤ now - lt.tPrev → ¬(lt.addr = a ∧ lt.rejectedOtherAddrs = true) →
          (lt.allowed now a minE).1 = true ∧
          (requestAdmit lt now a minE).1 = none)) := by
  intro lt now minE a hminE
  refine ⟨?_, ?_, ?_⟩
  · intro hearly
    have hall1 : (lt.allowed now a minE).1 = false := by
      unfold longTurnaroundStatus.allowed
      rw [if_pos hearly]
    constructor
    · rw [requestAdmit_eq lt now a minE (by omega), hall1]
      rfl
    · intro hne
      unfold longTurnaroundStatus.allowed
      rw [if_pos hearly]
      simp only [if_pos hne]
  · intro hlate heq hrej
    have hall : lt.allowed now a minE = (false, { lt with addr := 0 }) := by
      unfold longTurnaroundStatus.allowed
      rw [if_neg (by omega), if_pos ⟨heq, hrej⟩]
    refine ⟨by rw [hall], ?_, by rw [hall], by rw [hall], ?_⟩
    · rw [requestAdmit_eq lt now a minE (by omega), hall]
      rfl
    · intro ha0 now2 hlate2
      rw [hall] at hlate2
      rw [hall]
      show (longTurnaroundStatus.allowed { lt with addr := 0 } now2 a minE).1 = true
      have h1 : ¬(now2 - ({ lt with addr := 0 } : longTurnaroundStatus).tPrev < minE) := by
        dsimp only at hlate2 ⊢
        omega
      unfold longTurnaroundStatus.allowed
      rw [if_neg h1, if_neg (fun hcon => ha0 hcon.1.symm)]
  · intro hlate hother
    have hall : (lt.allowed now a minE) = (true, lt) := by
      unfold longTurnaroundStatus.allowed
      rw [if_neg (by omega), if_neg (by tauto)]
    constructor
    · rw [hall]
    · rw [requestAdmit_eq lt now a minE (by omega), hall]
      rfl

/-- C2 witness: a request to device 7 within the threshold is rejected
and marks rejectedOtherAddrs when the tracker holds device 3; from the
tracker state for device 7 with rejectedOtherAddrs set, a late request
to device 7 is rejected once more, and the following late request to
device 7 is admitted. -/
theorem c2_long_turnaround_admission_witness :
    (requestAdmit ⟨0, 3, false⟩ 1 7 5).1 = some ErrRejected ∧
    (longTurnaroundStatus.allowed ⟨0, 7, true⟩ 10 7 5).1 = false ∧
    ((longTurnaroundStatus.allowed ⟨0, 7, true⟩ 10 7 5).2.allowed 20 7 5).1
      = true := by
  refine ⟨?_, ?_, ?_⟩
  · exact ((c2_long_turnaround_admission ⟨0, 3, false⟩ 1 5 7 (by decide)).1
      (by decide)).1
  · exact ((c2_long_turnaround_admission ⟨0, 7, true⟩ 10 5 7 (by decide)).2.1
      (by decide) rfl rfl).1
  · exact ((c2_long_turnaround_admission ⟨0, 7, true⟩ 10 5 7 (by decide)).2.1
      (by decide) rfl rfl).2.2.2.2 (by decide) 20 (by decide)

/-- Helper: getD on a take agrees with getD on the original list below
the cut. -/
theorem getD_take_of_lt (l : List Nat) (k i : Nat) (h : i < k) :
    (l.take k).getD i 0 = l.getD i 0 := by
  simp [List.getD_eq_getElem?_getD, List.getElem?_take, h]

/-- Helper: throughout the item loop, the boolean result is true
exactly when the returned expected length equals the PDU length. -/
theorem matchLoop_snd_iff (v : VariableRespLenSpec) (pdu : List Nat) (n : Nat) :
    ∀ (ni nx : Nat),
      ((matchLoop v pdu n ni nx).2 = true ↔ (matchLoop v pdu n ni nx).1 = n) := by
  intro ni
  induction ni with
  | zero =>
    intro nx
    simp only [matchLoop]
    constructor
    · intro hh
      have := (beq_iff_eq).mp hh
      omega
    · intro hh
      exact (beq_iff_eq).mpr (by omega)
  | succ ni ih =>
    intro nx
    simp only [matchLoop]
    by_cases h : n < nx + v.itemLenIndex + 1
    · rw [if_pos h]
      dsimp only
      constructor
      · intro hh
        simp at hh
      · intro hh
        omega
    · rw [if_neg h]
      exact ih _

/-- Helper: running the item loop on a proper prefix of a PDU the full
loop matched returns false with an expected length beyond the prefix. -/
theorem matchLoop_take (v : VariableRespLenSpec) (pdu : List Nat) (n k : Nat)
    (hk : k < n) :
    ∀ (ni nx : Nat), (matchLoop v pdu n ni nx).2 = true →
      (matchLoop v (pdu.take k) k ni nx).2 = false ∧
      k < (matchLoop v (pdu.take k) k ni nx).1 := by
  intro ni
  induction ni with
  | zero =>
    intro nx h
    simp only [matchLoop] at h ⊢
    have hn : n = nx + v.tailLen := by
      have := (beq_iff_eq).mp h
      omega
    constructor
    · rw [beq_eq_false_iff_ne]
      omega
    · omega
  | succ ni ih =>
    intro nx h
    simp only [matchLoop] at h ⊢
    by_cases h1 : n < nx + v.itemLenIndex + 1
    · rw [if_pos h1] at h
      simp at h
    · rw [if_neg h1] at h
      by_cases h2 : k < nx + v.itemLenIndex + 1
      · rw [if_pos h2]
        exact ⟨rfl, h2⟩
      · rw [if_neg h2]
        rw [getD_take_of_lt pdu k _ (by omega)]
        exact ih _ h

/-- Helper: Match returns true exactly when the returned expected
length equals the PDU length. -/
theorem Match_snd_iff (v : VariableRespLenSpec) (pdu : List Nat) :
    ((v.Match pdu).2 = true ↔ (v.Match pdu).1 = pdu.length) := by
  unfold VariableRespLenSpec.Match
  by_cases h0 : v.numItemsFixed = 0
  · rw [if_pos h0]
    by_cases h1 : pdu.length < v.numItemsIndex + 1
    · rw [if_pos h1]
      constructor
      · intro hh
        simp at hh
      · intro hh
        dsimp only at hh
        omega
    · rw [if_neg h1]
      by_cases h2 : pdu.length < v.numItemsIndex + 1 + v.prefixLen
      · rw [if_pos h2]
        constructor
        · intro hh
          simp at hh
        · intro hh
          dsimp only at hh
          omega
      · rw [if_neg h2]
        exact matchLoop_snd_iff v pdu pdu.length _ _
  · rw [if_neg h0]
    by_cases h1 : pdu.length < v.prefixLen
    · rw [if_pos h1]
      constructor
      · intro hh
        simp at hh
      · intro hh
        dsimp only at hh
        omega
    · rw [if_neg h1]
      exact matchLoop_snd_iff v pdu pdu.length _ _

/-- Helper: Match on a proper prefix of a matching PDU reports a
mismatch with an expected length beyond the prefix. -/
theorem Match_take (v : VariableRespLenSpec) (pdu : List Nat) (k : Nat)
    (hm : (v.Match pdu).2 = true) (hk : k < pdu.length) :
    (v.Match (pdu.take k)).2 = false ∧ k < (v.Match (pdu.take k)).1 := by
  have hlen : (pdu.take k).length = k := by
    rw [List.length_take]
    omega
  unfold VariableRespLenSpec.Match at hm ⊢
  rw [hlen]
  by_cases h0 : v.numItemsFixed = 0
  · rw [if_pos h0] at hm ⊢
    rw [if_neg (show ¬(pdu.length < v.numItemsIndex + 1) by
      intro hc
      rw [if_pos hc] at hm
      simp at hm)] at hm
    by_cases h1 : k < v.numItemsIndex + 1
    · rw [if_pos h1]
      exact ⟨rfl, h1⟩
    · rw [if_neg h1]
      rw [getD_take_of_lt pdu k _ (by omega)]
      rw [if_neg (show ¬(pdu.length < v.numItemsIndex + 1 + v.prefixLen) by
        intro hc
        rw [if_pos hc] at hm
        simp at hm)] at hm
      by_cases h2 : k < v.numItemsIndex + 1 + v.prefixLen
      · rw [if_pos h2]
        exact ⟨rfl, h2⟩
      · rw [if_neg h2]
        exact matchLoop_take v pdu pdu.length k hk _ _ hm
  · rw [if_neg h0] at hm ⊢
    rw [if_neg (show ¬(pdu.length < v.prefixLen) by
      intro hc
      rw [if_pos hc] at hm
      simp at hm)] at hm
    by_cases h1 : k < v.prefixLen
    · rw [if_pos h1]
      exact ⟨rfl, h1⟩
    · rw [if_neg h1]
      exact matchLoop_take v pdu pdu.length k hk _ _ hm

/-- C7: Match returns (expected, true) exactly when the PDU length
equals expected, and on every proper prefix of a matching PDU it
returns (e, false) with e at least the prefix length plus one, the
monotone progress property. -/
theorem c7_variable_match_spec :
    ∀ (v : VariableRespLenSpec) (pdu : List Nat),
      ((v.Match pdu).2 = true ↔ pdu.length = (v.Match pdu).1) ∧
      (∀ k : Nat, (v.Match pdu).2 = true → k < pdu.length →
        (v.Match (pdu.take k)).2 = false ∧
        k + 1 ≤ (v.Match (pdu.take k)).1) := by
  intro v pdu
  constructor
  · rw [Match_snd_iff v pdu]
    exact eq_comm
  · intro k hm hk
    exact Match_take v pdu k hm hk

/-- C7 witness: the one item specification with a leading count byte
matches the 3 byte PDU 2 9 9, and on its length 1 prefix reports a
mismatch with expected length at least 2. -/
theorem c7_variable_match_spec_witness :
    (VariableRespLenSpec.Match ⟨0, 1, 0, 0, 0, 0⟩ [2, 9, 9]).2 = true ∧
    (VariableRespLenSpec.Match ⟨0, 1, 0, 0, 0, 0⟩ ([2, 9, 9].take 1)).2 = false ∧
    1 + 1 ≤ (VariableRespLenSpec.Match ⟨0, 1, 0, 0, 0, 0⟩ ([2, 9, 9].take 1)).1 := by
  refine ⟨by decide, ?_, ?_⟩
  · exact ((c7_variable_match_spec ⟨0, 1, 0, 0, 0, 0⟩ [2, 9, 9]).2 1
      (by decide) (by decide)).1
  · exact ((c7_variable_match_spec ⟨0, 1, 0, 0, 0, 0⟩ [2, 9, 9]).2 1
      (by decide) (by decide)).2

/-- Helper: one unfolding of the event loop. -/
theorem rmRun_cons (cfg : RMConfig) (st : RMState) (ev : RMEvent)
    (evs : List RMEvent) :
    rmRun cfg st (ev :: evs) =
      (match rmStep cfg st ev with
       | RMOut.next st2 => rmRun cfg st2 evs
       | RMOut.leave st2 err => some (rmEpilogue st2 err)
       | RMOut.abort e => some ([], some e)) := rfl

/-- Helper: the timer branch of the select loop when no echo is
pending: a nonempty unvalidated buffer with extensions left widens the
interbyte window, anything else leaves the loop with no error. -/
theorem rmStep_timer_noecho (cfg : RMConfig) (st : RMState)
    (hecho : st.echo = none) :
    rmStep cfg st RMEvent.timerFired =
      (if st.buf.drop st.nSkip ≠ [] ∧ !st.bufok ∧
          st.nto < ntoMax cfg.interframeTimeoutMax
       then RMOut.next { st with nto := st.nto + 1 }
       else RMOut.leave st none) := by
  unfold rmStep
  rw [hecho]

/-- Helper: the epilogue on a nonempty buffer returns it with no
error. -/
theorem rmEpilogue_of_ne (st : RMState) (hne : st.buf.drop st.nSkip ≠ []) :
    rmEpilogue st none = (st.buf.drop st.nSkip, none) := by
  unfold rmEpilogue
  exact if_neg (fun h => hne h.2)

/-- Helper: the epilogue on an empty buffer turns the nil error into
ErrTimeout. -/
theorem rmEpilogue_of_empty (st : RMState) (he : st.buf.drop st.nSkip = []) :
    rmEpilogue st none = ([], some ErrTimeout) := by
  show (if (none : Option GoErr) = none ∧ st.buf.drop st.nSkip = [] then
          (st.buf.drop st.nSkip, some ErrTimeout)
        else (st.buf.drop st.nSkip, none)) = ([], some ErrTimeout)
  rw [if_pos ⟨rfl, he⟩, he]

/-- Helper: from a state with a nonempty unvalidated buffer and no
echo, enough timer events exhaust the extension budget and the loop
returns the buffer with no error. -/
theorem rmRun_timeouts (cfg : RMConfig) :
    ∀ (j : Nat) (st : RMState), st.echo = none → st.buf.drop st.nSkip ≠ [] →
      st.bufok = false → ntoMax cfg.interframeTimeoutMax ≤ st.nto + j →
      rmRun cfg st (List.replicate (j + 1) RMEvent.timerFired)
        = some (st.buf.drop st.nSkip, none) := by
  intro j
  induction j with
  | zero =>
    intro st hecho hne hok hnto
    rw [List.replicate_succ, rmRun_cons, rmStep_timer_noecho cfg st hecho,
        if_neg (by
          rintro ⟨-, -, hlt⟩
          omega)]
    show some (rmEpilogue st none) = some (st.buf.drop st.nSkip, none)
    rw [rmEpilogue_of_ne st hne]
  | succ j ih =>
    intro st hecho hne hok hnto
    rw [List.replicate_succ, rmRun_cons, rmStep_timer_noecho cfg st hecho]
    by_cases hlt : st.nto < ntoMax cfg.interframeTimeoutMax
    · rw [if_pos ⟨hne, by simp [hok], hlt⟩]
      show rmRun cfg { st with nto := st.nto + 1 }
          (List.replicate (j + 1) RMEvent.timerFired)
        = some (st.buf.drop st.nSkip, none)
      exact ih { st with nto := st.nto + 1 } hecho hne hok
        (by
          show ntoMax cfg.interframeTimeoutMax ≤ st.nto + 1 + j
          omega)
    · rw [if_neg (by
        rintro ⟨-, -, hc⟩
        omega)]
      show some (rmEpilogue st none) = some (st.buf.drop st.nSkip, none)
      rw [rmEpilogue_of_ne st hne]

/-- Helper: the data branch of the select loop with no pending echo,
no MsgComplete callback and a nonzero interframe budget appends the
chunk, revalidates via CheckBytes and rearms the interframe timer. -/
theorem rmStep_data_noecho (cfg : RMConfig) (st : RMState) (chunk : List Nat)
    (cb : List Nat → List Nat → Bool) (bval : Bool)
    (hecho : st.echo = none) (hcb : cfg.checkBytes = some cb)
    (hmc : cfg.msgComplete = none) (hif : cfg.interframeTimeoutMax ≠ 0)
    (hval : cb ((st.buf ++ chunk).drop st.buf.length)
               ((st.buf ++ chunk).drop st.nSkip) = bval) :
    rmStep cfg st (RMEvent.dataDone chunk none) =
      RMOut.next { buf := st.buf ++ chunk, bufok := bval,
                   nto := 0, nSkip := st.nSkip, echo := none } := by
  unfold rmStep
  rw [hcb, hecho]
  unfold rmReeval
  show rmAfterData cfg
      { buf := st.buf ++ chunk,
        bufok := cb ((st.buf ++ chunk).drop st.buf.length)
                    ((st.buf ++ chunk).drop st.nSkip),
        nto := st.nto, nSkip := st.nSkip, echo := none } = _
  rw [hval]
  unfold rmAfterData
  rw [hmc, if_neg hif]

/-- C8 counterexample: with a CheckBytes that never validates, one
received byte followed by the interbyte timeout expiring past the
extension budget makes Read return the buffer with a NIL error: the
non-validating nonempty buffer IS returned as a successful frame,
contradicting the claim that ErrTimeout is returned. -/
theorem c8_counterexample :
    rmRead { checkBytes := some (fun _ _ => false), msgComplete := none,
             interframeTimeoutMax := 1750000 } none
        [RMEvent.dataDone [5] none, RMEvent.timerFired, RMEvent.timerFired]
      = some ([5], none) ∧
    some ([5], (none : Option GoErr)) ≠ some ([5], some ErrTimeout) := by
  exact ⟨by decide, by decide⟩

/-- C8 amended: when the timeout expires with an empty buffer, Read
returns ErrTimeout; when it expires with a nonempty buffer that
CheckBytes has not validated, Read first widens the interbyte window
until the ntoMax extensions are exhausted and then returns the buffer
with a nil error, leaving validation to the caller (the rtu Receive
length and CRC checks). -/
theorem c8_read_timeout_behaviour :
    (∀ (cfg : RMConfig),
      rmRead cfg none [RMEvent.timerFired] = some ([], some ErrTimeout)) ∧
    (∀ (cb : List Nat → List Nat → Bool) (chunk : List Nat) (ifMax : Nat),
      chunk ≠ [] → (∀ x y, cb x y = false) → ifMax ≠ 0 →
      rmRead { checkBytes := some cb, msgComplete := none,
               interframeTimeoutMax := ifMax } none
          (RMEvent.dataDone chunk none ::
            List.replicate (ntoMax ifMax + 1) RMEvent.timerFired)
        = some (chunk, none)) := by
  constructor
  · intro cfg
    show rmRun cfg { buf := [], bufok := cfg.checkBytes.isNone, nto := 0,
                     nSkip := 0, echo := none } [RMEvent.timerFired]
        = some ([], some ErrTimeout)
    rw [rmRun_cons, rmStep_timer_noecho cfg _ rfl,
        if_neg (by
          rintro ⟨hc, -⟩
          exact hc rfl)]
    show some (rmEpilogue { buf := [], bufok := cfg.checkBytes.isNone, nto := 0,
                            nSkip := 0, echo := none } none)
        = some ([], some ErrTimeout)
    rw [rmEpilogue_of_empty { buf := [], bufok := cfg.checkBytes.isNone, nto := 0,
                              nSkip := 0, echo := none } rfl]
  · intro cb chunk ifMax hchunk hcb hif
    show rmRun { checkBytes := some cb, msgComplete := none,
                 interframeTimeoutMax := ifMax }
        { buf := [], bufok := (some cb).isNone, nto := 0, nSkip := 0,
          echo := none }
        (RMEvent.dataDone chunk none ::
          List.replicate (ntoMax ifMax + 1) RMEvent.timerFired)
      = some (chunk, none)
    rw [rmRun_cons, rmStep_data_noecho _ _ chunk cb false rfl rfl rfl hif
      (hcb _ _)]
    show rmRun { checkBytes := some cb, msgComplete := none,
                 interframeTimeoutMax := ifMax }
        { buf := chunk, bufok := false, nto := 0, nSkip := 0, echo := none }
        (List.replicate (ntoMax ifMax + 1) RMEvent.timerFired)
      = some (chunk, none)
    have hfin := rmRun_timeouts ⟨some cb, none, ifMax⟩ (ntoMax ifMax)
        ⟨chunk, false, 0, 0, none⟩ rfl (by simpa using hchunk) rfl
        (by
          show ntoMax ifMax ≤ 0 + ntoMax ifMax
          omega)
    simpa using hfin

/-- C8 witness: the amended theorem applied to the constantly false
CheckBytes with chunk 5 and a one extension budget, and to a timeout
with nothing received. -/
theorem c8_read_timeout_behaviour_witness :
    rmRead { checkBytes := some (fun _ _ => false), msgComplete := none,
             interframeTimeoutMax := 1750000 } none
        (RMEvent.dataDone [5] none :: List.replicate 2 RMEvent.timerFired)
      = some ([5], none) ∧
    rmRead { checkBytes := none, msgComplete := none,
             interframeTimeoutMax := 0 } none
        [RMEvent.timerFired] = some ([], some ErrTimeout) := by
  constructor
  · have h := c8_read_timeout_behaviour.2 (fun _ _ => false) [5] 1750000
      (by decide) (fun _ _ => rfl) (by decide)
    have hn : ntoMax 1750000 = 1 := rfl
    rw [hn] at h
    exact h
  · exact c8_read_timeout_behaviour.1 _

/-- Helper: the scan loop visits every address from a to addrMax in
order and returns nil when every probe outcome is swallowed. -/
theorem scan_all (test : Nat → Option GoErr) (addrMax : Nat)
    (hm : addrMax ≤ 254) (hsw : ∀ x, scanSwallows (test x) = true) :
    ∀ (n a fuel : Nat), a + n = addrMax + 1 → n + 1 ≤ fuel →
      scanDevices test addrMax fuel a = some (List.range' a n, none) := by
  intro n
  induction n with
  | zero =>
    intro a fuel ha hf
    obtain ⟨f2, rfl⟩ : ∃ f2, fuel = f2 + 1 := ⟨fuel - 1, by omega⟩
    simp only [scanDevices]
    rw [if_neg (by omega)]
    simp [List.range']
  | succ n ih =>
    intro a fuel ha hf
    obtain ⟨f2, rfl⟩ : ∃ f2, fuel = f2 + 1 := ⟨fuel - 1, by omega⟩
    simp only [scanDevices]
    rw [if_pos (by omega)]
    have hmod : (a + 1) % 256 = a + 1 := Nat.mod_eq_of_lt (by omega)
    have hrec := ih (a + 1) f2 (by omega) (by omega)
    rcases hs : test a with _ | e
    · rw [hmod, hrec, List.range'_succ]
    · have hsw2 : e = ErrTimeout ∨ MsgInvalid e = true := by
        have h2 := hsw a
        rw [hs] at h2
        simp only [scanSwallows, Bool.or_eq_true, beq_iff_eq] at h2
        exact h2
      show (if e = ErrTimeout ∨ MsgInvalid e = true then
              match scanDevices test addrMax f2 ((a + 1) % 256) with
              | none => none
              | some (tr, r) => some (a :: tr, r)
            else some ([a], some e)) = some (List.range' a (n + 1), none)
      rw [if_pos hsw2, hmod, hrec, List.range'_succ]

/-- Helper: the scan loop stops at the first address whose probe
returns a non swallowed error and returns that error. -/
theorem scan_stop (test : Nat → Option GoErr) (addrMax aerr : Nat) (e : GoErr)
    (haerr : aerr ≤ addrMax) (hmax : addrMax ≤ 254)
    (he : test aerr = some e) (hhard : scanSwallows (some e) = false) :
    ∀ (n a fuel : Nat), a + n = aerr → n + 1 ≤ fuel →
      (∀ x, a ≤ x → x < aerr → scanSwallows (test x) = true) →
      scanDevices test addrMax fuel a
        = some (List.range' a (n + 1), some e) := by
  have hnsw : ¬(e = ErrTimeout ∨ MsgInvalid e = true) := by
    intro hor
    rw [show scanSwallows (some e) = (e == ErrTimeout || MsgInvalid e) from rfl]
      at hhard
    rcases hor with h | h
    · rw [h] at hhard
      simp at hhard
    · rw [h] at hhard
      simp at hhard
  intro n
  induction n with
  | zero =>
    intro a fuel ha hf hsw
    obtain ⟨f2, rfl⟩ : ∃ f2, fuel = f2 + 1 := ⟨fuel - 1, by omega⟩
    have ha2 : a = aerr := by omega
    subst ha2
    simp only [scanDevices]
    rw [if_pos (by omega)]
    rw [he]
    show (if e = ErrTimeout ∨ MsgInvalid e = true then
            match scanDevices test addrMax f2 ((a + 1) % 256) with
            | none => none
            | some (tr, r) => some (a :: tr, r)
          else some ([a], some e)) = some (List.range' a 1, some e)
    rw [if_neg hnsw]
    simp [List.range']
  | succ n ih =>
    intro a fuel ha hf hsw
    obtain ⟨f2, rfl⟩ : ∃ f2, fuel = f2 + 1 := ⟨fuel - 1, by omega⟩
    simp only [scanDevices]
    rw [if_pos (by omega)]
    have hmod : (a + 1) % 256 = a + 1 := Nat.mod_eq_of_lt (by omega)
    have hrec := ih (a + 1) f2 (by omega) (by omega)
      (fun x hx1 hx2 => hsw x (by omega) hx2)
    rcases hs : test a with _ | e2
    · rw [hmod, hrec]
      conv_rhs => rw [List.range'_succ]
    · have hsw2 : e2 = ErrTimeout ∨ MsgInvalid e2 = true := by
        have h2 := hsw a (by omega) (by omega)
        rw [hs] at h2
        simp only [scanSwallows, Bool.or_eq_true, beq_iff_eq] at h2
        exact h2
      show (if e2 = ErrTimeout ∨ MsgInvalid e2 = true then
              match scanDevices test addrMax f2 ((a + 1) % 256) with
              | none => none
              | some (tr, r) => some (a :: tr, r)
            else some ([a], some e2)) = some (List.range' a (n + 1 + 1), some e)
      rw [if_pos hsw2, hmod, hrec]
      conv_rhs => rw [List.range'_succ]

/-- Helper: with addrMax 255 the byte loop variable wraps around and
the exit condition never fails, so the loop consumes any amount of fuel
without returning when every probe outcome is swallowed. -/
theorem scan_wrap_never_ends (test : Nat → Option GoErr)
    (hsw : ∀ x, scanSwallows (test x) = true) :
    ∀ (fuel a : Nat), a ≤ 255 → scanDevices test 255 fuel a = none := by
  intro fuel
  induction fuel with
  | zero =>
    intro a ha
    rfl
  | succ fuel ih =>
    intro a ha
    simp only [scanDevices]
    rw [if_pos ha]
    have hrec := ih ((a + 1) % 256)
      (by omega)
    rcases hs : test a with _ | e
    · rw [hrec]
    · have hsw2 : e = ErrTimeout ∨ MsgInvalid e = true := by
        have h2 := hsw a
        rw [hs] at h2
        simp only [scanSwallows, Bool.or_eq_true, beq_iff_eq] at h2
        exact h2
      show (if e = ErrTimeout ∨ MsgInvalid e = true then
              match scanDevices test 255 fuel ((a + 1) % 256) with
              | none => none
              | some (tr, r) => some (a :: tr, r)
            else some ([a], some e)) = none
      rw [if_pos hsw2, hrec]

/-- C9 counterexample: scanning addresses 0 to 255 with probes that
always succeed does not terminate: 600 loop iterations (more than twice
the address space) leave the loop still running, because the byte loop
variable wraps from 255 to 0 and the condition a le 255 always holds. -/
theorem c9_counterexample :
    scanDevices (fun _ => none) 255 600 0 = none :=
  scan_wrap_never_ends (fun _ => none) (fun _ => rfl) 600 0 (by omega)

/-- C9 amended: for addrMax at most 254, ScanDevices probes each
address from addrMin to addrMax exactly once in increasing order,
terminates, and returns nil when every probe yields nil, ErrTimeout or
a MsgInvalid error; it stops early at the first other error and returns
it.  For addrMax 255 the loop never terminates when every probe outcome
is swallowed (the byte loop variable wraps around). -/
theorem c9_scan_devices :
    ∀ (test : Nat → Option GoErr) (addrMin addrMax : Nat),
      addrMin ≤ addrMax →
      ((addrMax ≤ 254 → (∀ x, scanSwallows (test x) = true) →
          scanDevices test addrMax (addrMax + 2 - addrMin) addrMin
            = some (List.range' addrMin (addrMax + 1 - addrMin), none)) ∧
       (∀ (aerr : Nat) (e : GoErr), addrMax ≤ 254 → addrMin ≤ aerr →
          aerr ≤ addrMax → test aerr = some e →
          scanSwallows (some e) = false →
          (∀ x, addrMin ≤ x → x < aerr → scanSwallows (test x) = true) →
          scanDevices test addrMax (addrMax + 2 - addrMin) addrMin
            = some (List.range' addrMin (aerr + 1 - addrMin), some e)) ∧
       (addrMax = 255 → (∀ x, scanSwallows (test x) = true) →
          ∀ fuel : Nat, scanDevices test addrMax fuel addrMin = none)) := by
  intro test addrMin addrMax hrange
  refine ⟨?_, ?_, ?_⟩
  · intro hmax hsw
    have h := scan_all test addrMax hmax hsw (addrMax + 1 - addrMin) addrMin
      (addrMax + 2 - addrMin) (by omega) (by omega)
    exact h
  · intro aerr e hmax hmin2 hmax2 he hhard hsw
    have h := scan_stop test addrMax aerr e hmax2 hmax he hhard
      (aerr - addrMin) addrMin (addrMax + 2 - addrMin) (by omega) (by omega) hsw
    rw [show aerr - addrMin + 1 = aerr + 1 - addrMin from by omega] at h
    exact h
  · intro hmax hsw fuel
    subst hmax
    exact scan_wrap_never_ends test hsw fuel addrMin (by omega)

/-- C9 witness: scanning 1 to 3 with always nil probes visits 1 2 3
and returns nil; with a hard error at address 2 the scan visits 1 2 and
returns the error. -/
theorem c9_scan_devices_witness :
    scanDevices (fun _ => none) 3 4 1 = some (List.range' 1 3, none) ∧
    scanDevices (fun a => if a = 2 then some (GoErr.exception 4) else none)
        3 4 1 = some (List.range' 1 2, some (GoErr.exception 4)) := by
  constructor
  · exact (c9_scan_devices (fun _ => none) 1 3 (by omega)).1 (by omega)
      (fun _ => rfl)
  · exact (c9_scan_devices (fun a => if a = 2 then some (GoErr.exception 4)
        else none) 1 3 (by omega)).2.1 2 (GoErr.exception 4) (by omega)
      (by omega) (by omega) (by decide) (by decide)
      (fun x h1 h2 => by
        have hx : x = 1 := by omega
        subst hx
        decide)
